import Mathlib

/-!
Shallow embedding of the read-only-operations classifier from
`awslabs/aws_api_mcp_server/core/metadata/read_only_operations_list.py`
and of the batch pre-warm script `scripts/prebuild_cache.py`.

Python dicts keyed by service/operation name are modelled as association
lists (`List (String × α)`) with first-match lookup and replace-or-append
assignment, matching CPython dict semantics for the operations the source
uses (`in`, `d[k]`, `d[k] = v`).  Network and filesystem effects are
modelled by passing an explicit read-only `World` (the fetch oracle and the
per-service cache-file contents) and by counting how many fetches and
cache-file reads a call performs.
-/

namespace AwsApiMcp

/-- First-match lookup in an association list, modelling `d[k]` / `k in d`. -/
def lookupD {α : Type} : List (String × α) → String → Option α
  | [], _ => none
  | p :: rest, k => if p.1 = k then some p.2 else lookupD rest k

/-- Replace-or-append assignment, modelling `d[k] = v` on a Python dict. -/
def insertD {α : Type} : List (String × α) → String → α → List (String × α)
  | [], k, v => [(k, v)]
  | p :: rest, k, v => if p.1 = k then (k, v) :: rest else p :: insertD rest k v

theorem lookupD_insertD {α : Type} (l : List (String × α)) (k : String) (v : α) (s : String) :
    lookupD (insertD l k v) s = if k = s then some v else lookupD l s := by
  induction l with
  | nil => simp [insertD, lookupD]
  | cons p rest ih =>
    by_cases hpk : p.1 = k <;> by_cases hks : k = s <;>
      simp_all [insertD, lookupD]

theorem lookupD_eq_none_of_not_mem_keys {α : Type} (l : List (String × α)) (k : String)
    (h : k ∉ l.map Prod.fst) : lookupD l k = none := by
  induction l with
  | nil => rfl
  | cons p rest ih =>
    simp only [List.map_cons, List.mem_cons] at h
    push_neg at h
    simp [lookupD, Ne.symm h.1, ih h.2]

/-- The operation list recorded for a service, `[]` when the service is absent. -/
def opsFor (m : List (String × List String)) (s : String) : List String :=
  (lookupD m s).getD []

theorem opsFor_insertD (m : List (String × List String)) (k : String) (v : List String)
    (s : String) : opsFor (insertD m k v) s = if k = s then v else opsFor m s := by
  simp only [opsFor, lookupD_insertD]
  split <;> rfl

deriving instance DecidableEq for Except

/-- The hard-coded override table `OVERRIDES` from the source, verbatim. -/
def OVERRIDES : List (String × List (String × Bool)) :=
  [ ("sts",
      [ ("AssumeRole", false)
      , ("AssumeRoleWithWebIdentity", false)
      , ("AssumeRoleWithSAML", false)
      , ("GetSessionToken", false)
      , ("GetFederationToken", false)
      , ("AssumeRoot", false) ])
  , ("iam", [("CreateAccessKey", false)])
  , ("cognito-identity",
      [ ("GetCredentialsForIdentity", false)
      , ("GetOpenIdToken", false) ])
  , ("sso", [("GetRoleCredentials", false)]) ]

/-- The guard `service in OVERRIDES and operation in OVERRIDES[service]` together with
the value `OVERRIDES[service][operation]` it returns when it holds. -/
def lookupOverride (service operation : String) : Option Bool :=
  match lookupD OVERRIDES service with
  | some serviceOverrides => lookupD serviceOverrides operation
  | none => none

/-- One element of the remote `Actions` array.  `Name` is `none` when the JSON object
lacks a `Name` key; `IsWrite` is `none` when any key of the chain
`Annotations → Properties → IsWrite` is missing (the source indexes the chain with
`[]`, which raises `KeyError` in that case). -/
structure Action where
  Name : Option String
  IsWrite : Option Bool
deriving DecidableEq, Repr

/-- A per-service response body that parsed as JSON.  `Actions` is `none` when the
body has no `Actions` key. -/
structure ServiceResponse where
  Actions : Option (List Action)
deriving DecidableEq, Repr

/-- The external world a `has` call can observe: `fetch` gives the parsed JSON body a
`requests.get(url).json()` returns (`none` models any exception: timeout, transport
failure, non-JSON body), and `service_operations_cache` gives the contents of
`service_operations/<service>.json` (`none`: the file does not exist; `some none`:
it exists but `json.load` fails; `some (some ops)`: it loads as a list of
operation names, the only shape `_save_service_cache` ever writes). -/
structure World where
  fetch : String → Option ServiceResponse
  service_operations_cache : String → Option (Option (List String))

/-- The error raised by `_cache_ready_only_operations_for_service` (a `RuntimeError`
whose message names the service); the spec calls it `ServiceOperationsUnavailable`. -/
structure ServiceOperationsUnavailable where
  service : String
deriving DecidableEq, Repr

/-- State of a `ReadOnlyOperations` instance: `service_reference_urls_by_service` is
`self._service_reference_urls_by_service`, `known_readonly_operations` is
`self._known_readonly_operations`, and `resolved_operations` is the contents of the
dict `self` itself (the lazily populated per-service cache). -/
structure ReadOnlyOperations where
  service_reference_urls_by_service : List (String × String)
  known_readonly_operations : List (String × List String)
  resolved_operations : List (String × List String)
deriving DecidableEq, Repr

/-- Outcome of `_cache_ready_only_operations_for_service`: the raised error (if any),
the post-call instance state, and how many network fetches and cache-file reads the
call performed. -/
structure ResolveOutcome where
  result : Except ServiceOperationsUnavailable Unit
  state : ReadOnlyOperations
  fetchCalls : Nat
  cacheReads : Nat
deriving DecidableEq

/-- Outcome of a `has` call: the returned boolean or the propagated error, the
post-call instance state, and the effect counts. -/
structure HasOutcome where
  result : Except ServiceOperationsUnavailable Bool
  state : ReadOnlyOperations
  fetchCalls : Nat
  cacheReads : Nat
deriving DecidableEq

/-- The extraction loop of `_cache_ready_only_operations_for_service`:

    self[service] = []
    for action in response['Actions']:
        if not action['Annotations']['Properties']['IsWrite']:
            self[service].append(action['Name'])

`acc` is the list accumulated so far; a `KeyError` (missing `IsWrite` chain, or
missing `Name` on a selected action) aborts the loop, leaving `.error acc`, the
partially accumulated list that remains stored in `self[service]`. -/
def extract_read_only_actions : List Action → List String → Except (List String) (List String)
  | [], acc => .ok acc
  | a :: rest, acc =>
    match a.IsWrite with
    | none => .error acc
    | some true => extract_read_only_actions rest acc
    | some false =>
      match a.Name with
      | none => .error acc
      | some n => extract_read_only_actions rest (acc ++ [n])

/-- The `except` branch of `_cache_ready_only_operations_for_service`: try the local
cache file; on a loadable file store its contents, otherwise re-raise as
`ServiceOperationsUnavailable`.  Exactly one fetch attempt preceded this branch, and
the branch performs one cache-file access. -/
def ReadOnlyOperations.load_service_cache_fallback (w : World) (self : ReadOnlyOperations)
    (service : String) : ResolveOutcome :=
  match w.service_operations_cache service with
  | some (some cachedOperations) =>
    ⟨.ok (), { self with
        resolved_operations := insertD self.resolved_operations service cachedOperations }, 1, 1⟩
  | some none => ⟨.error ⟨service⟩, self, 1, 1⟩
  | none => ⟨.error ⟨service⟩, self, 1, 1⟩

/-- `ReadOnlyOperations._cache_ready_only_operations_for_service` (the source keeps
this spelling): fetch the service's catalog; on success store the extracted
read-only names (persisting them is best-effort and modelled separately by
`_save_service_cache`); on any exception fall back to the local cache file.  Note
that when the body parses but is malformed, `self[service]` has already been
assigned before the exception fires, so the partial list stays in memory. -/
def ReadOnlyOperations.cache_ready_only_operations_for_service (w : World)
    (self : ReadOnlyOperations) (service : String) : ResolveOutcome :=
  match w.fetch ((lookupD self.service_reference_urls_by_service service).getD "") with
  | none => ReadOnlyOperations.load_service_cache_fallback w self service
  | some response =>
    let self1 : ReadOnlyOperations :=
      { self with resolved_operations := insertD self.resolved_operations service [] }
    match response.Actions with
    | none => ReadOnlyOperations.load_service_cache_fallback w self1 service
    | some actions =>
      match extract_read_only_actions actions [] with
      | .error accumulated =>
        ReadOnlyOperations.load_service_cache_fallback w
          { self1 with
              resolved_operations := insertD self1.resolved_operations service accumulated }
          service
      | .ok operations =>
        ⟨.ok (), { self1 with
            resolved_operations := insertD self1.resolved_operations service operations }, 1, 0⟩

/-- Lines 142–146 of `has`: `if service not in self:` resolve (returning `false`
outright when the service is not in the directory), then
`return operation in self[service]`. -/
def ReadOnlyOperations.resolve_then_check (w : World) (self : ReadOnlyOperations)
    (service operation : String) : HasOutcome :=
  match lookupD self.resolved_operations service with
  | some operations => ⟨.ok (operations.contains operation), self, 0, 0⟩
  | none =>
    match lookupD self.service_reference_urls_by_service service with
    | none => ⟨.ok false, self, 0, 0⟩
    | some _ =>
      let r := ReadOnlyOperations.cache_ready_only_operations_for_service w self service
      match r.result with
      | .error e => ⟨.error e, r.state, r.fetchCalls, r.cacheReads⟩
      | .ok _ =>
        match lookupD r.state.resolved_operations service with
        | some operations => ⟨.ok (operations.contains operation), r.state, r.fetchCalls, r.cacheReads⟩
        | none => ⟨.ok false, r.state, r.fetchCalls, r.cacheReads⟩

/-- `ReadOnlyOperations.has(service, operation)`: override table, then the merged
static set, then the lazily resolved per-service list. -/
def ReadOnlyOperations.has (w : World) (self : ReadOnlyOperations)
    (service operation : String) : HasOutcome :=
  match lookupOverride service operation with
  | some forced => ⟨.ok forced, self, 0, 0⟩
  | none =>
    match lookupD self.known_readonly_operations service with
    | some operations =>
      if operations.contains operation then ⟨.ok true, self, 0, 0⟩
      else ReadOnlyOperations.resolve_then_check w self service operation
    | none => ReadOnlyOperations.resolve_then_check w self service operation

/-- The parsed bundled metadata file `data/api_metadata.json` (external data, not in
the repository): service → operation → type tag, where the tag models
`operation_metadata.get('type')`. -/
abbrev Metadata := List (String × List (String × Option String))

/-- One step of the loop body of `_get_known_readonly_operations_from_metadata`:
`if operation_type == 'ReadOnly': known_readonly_operations[service].append(operation)`
(on a `defaultdict(list)`, so the first append for a service creates its entry). -/
def addReadOnly (known : List (String × List String)) (service : String)
    (q : String × Option String) : List (String × List String) :=
  if q.2 = some "ReadOnly" then insertD known service (opsFor known service ++ [q.1]) else known

/-- `ReadOnlyOperations._get_known_readonly_operations_from_metadata`, applied to the
parsed metadata: retain, per service, the operations whose type tag is `ReadOnly`. -/
def get_known_readonly_operations_from_metadata (data : Metadata) :
    List (String × List String) :=
  data.foldl (fun known p => p.2.foldl (fun kn q => addReadOnly kn p.1 q) known) []

/-- `ReadOnlyOperations._get_custom_readonly_operations` from the source, verbatim. -/
def get_custom_readonly_operations : List (String × List String) :=
  [ ("s3", ["ls", "presign"])
  , ("cloudfront", ["sign"])
  , ("cloudtrail", ["validate-logs"])
  , ("codeartifact", ["login"])
  , ("codecommit", ["credential-helper"])
  , ("datapipeline", ["list-runs"])
  , ("ecr", ["get-login", "get-login-password"])
  , ("ecr-public", ["get-login-password"])
  , ("eks", ["get-token"])
  , ("emr", ["describe-cluster"])
  , ("gamelift", ["get-game-session-log"])
  , ("logs", ["start-live-tail"])
  , ("rds", ["generate-db-auth-token"])
  , ("configservice", ["get-status"]) ]

/-- One step of the merge loop in `ReadOnlyOperations.__init__`: append the custom
list to the bundled list when the service already has one, otherwise add it. -/
def merge_custom_step (known : List (String × List String)) (p : String × List String) :
    List (String × List String) :=
  match lookupD known p.1 with
  | some existing => insertD known p.1 (existing ++ p.2)
  | none => insertD known p.1 p.2

/-- The merged static classification set `self._known_readonly_operations` as built
by `ReadOnlyOperations.__init__` from the bundled metadata and the custom table. -/
def mk_known_readonly_operations (data : Metadata) : List (String × List String) :=
  get_custom_readonly_operations.foldl merge_custom_step
    (get_known_readonly_operations_from_metadata data)

/-- `ReadOnlyOperations.__init__`: store the directory, build the merged static set,
start with no per-service entries (the dict `self` starts empty). -/
def ReadOnlyOperations.init (service_reference_urls_by_service : List (String × String))
    (data : Metadata) : ReadOnlyOperations :=
  { service_reference_urls_by_service := service_reference_urls_by_service
  , known_readonly_operations := mk_known_readonly_operations data
  , resolved_operations := [] }

/-- The exception a failed directory fetch raises, abstracted as its message. -/
structure DirectoryFetchFailure where
  message : String
deriving DecidableEq, Repr

/-- The dict-building loop shared by the success path of
`ServiceReferenceUrlsByService.__init__` and `_load_cache`:
`for service_reference in response: self[service_reference['service']] = service_reference['url']`. -/
def ServiceReferenceUrlsByService.build (records : List (String × String)) :
    List (String × String) :=
  records.foldl (fun urls r => insertD urls r.1 r.2) []

/-- `ServiceReferenceUrlsByService.__init__`: build the directory from the fetched
response (persisting it is best-effort); on fetch failure load the persisted
directory cache (`none`: the file does not exist; `some none`: it exists but fails
to load; `some (some records)`: it loads), and when that too is unusable re-raise a
`RuntimeError` carrying the original fetch error. -/
def ServiceReferenceUrlsByService.init
    (fetchResult : Except DirectoryFetchFailure (List (String × String)))
    (directory_cache : Option (Option (List (String × String)))) :
    Except DirectoryFetchFailure (List (String × String)) :=
  match fetchResult with
  | .ok records => .ok (ServiceReferenceUrlsByService.build records)
  | .error e =>
    match directory_cache with
    | some (some records) => .ok (ServiceReferenceUrlsByService.build records)
    | some none => .error e
    | none => .error e

/-- JSON values, as far as the cache files use them. -/
inductive Json where
  | null : Json
  | bool : Bool → Json
  | str : String → Json
  | arr : List Json → Json
  | obj : List (String × Json) → Json

/-- What `json.dump(operations, f)` writes for a list of operation names. -/
def encode_operations (operations : List String) : Json :=
  .arr (operations.map .str)

/-- Parse a JSON array element list back into operation names. -/
def decode_operation_names : List Json → Option (List String)
  | [] => some []
  | .str s :: rest => (decode_operation_names rest).map (s :: ·)
  | _ => none

/-- What `json.load(f)` yields on a per-service cache file, read back as a list of
operation names (the only shape `_save_service_cache` writes). -/
def decode_operations : Json → Option (List String)
  | .arr elements => decode_operation_names elements
  | _ => none

/-- The per-service cache files under `service_operations/`, one JSON document per
service name. -/
abbrev CacheStore := List (String × Json)

/-- `ReadOnlyOperations._save_service_cache`: serialize the operation list to
`service_operations/<service>.json`. -/
def save_service_cache (store : CacheStore) (service : String)
    (operations : List String) : CacheStore :=
  insertD store service (encode_operations operations)

/-- The fallback read of `service_operations/<service>.json`: load the file and
deserialize it as a list of operation names. -/
def load_service_cache (store : CacheStore) (service : String) : Option (List String) :=
  (lookupD store service).bind decode_operations

/-- The list comprehension of `fetch_service_operations` in
`scripts/prebuild_cache.py`:

    [action['Name'] for action in svc_data.get('Actions', [])
     if not action.get('Annotations', {}).get('Properties', {}).get('IsWrite', True)]

A missing `IsWrite` chain defaults to `True` (the action is skipped); a selected
action missing `Name` raises, so the whole comprehension fails and nothing is
written (`none`). -/
def prebuild_read_only_ops : List Action → Option (List String)
  | [] => some []
  | a :: rest =>
    if a.IsWrite.getD true then prebuild_read_only_ops rest
    else
      match a.Name with
      | none => none
      | some n => (prebuild_read_only_ops rest).map (n :: ·)

/-- The list `fetch_service_operations` writes to `service_operations/<service>.json`
for a response body, `none` when the function fails and writes nothing. -/
def fetch_service_operations_extract (response : ServiceResponse) : Option (List String) :=
  prebuild_read_only_ops (response.Actions.getD [])

/-- The list `_cache_ready_only_operations_for_service` extracts (and then stores and
persists) from a response body; `.error` carries the partial list left in memory
when extraction raises. -/
def resolver_extracted (response : ServiceResponse) : Except (List String) (List String) :=
  match response.Actions with
  | none => .error []
  | some actions => extract_read_only_actions actions []

theorem contains_eq_true_iff_mem (l : List String) (a : String) :
    l.contains a = true ↔ a ∈ l := by simp

/-- C1: for every (service, operation) pair present in the override table, `has`
returns exactly the forced boolean stored there, with the instance state unchanged
and zero network fetches and zero cache-file reads, whatever the static set, the
directory, the per-service cache and the external world contain. -/
theorem override_forces_value (w : World) (self : ReadOnlyOperations)
    (service operation : String) (forced : Bool)
    (h : lookupOverride service operation = some forced) :
    ReadOnlyOperations.has w self service operation = ⟨.ok forced, self, 0, 0⟩ := by
  simp only [ReadOnlyOperations.has, h]

/-- Witness for C1 at the concrete pair ("sts", "AssumeRole"). -/
theorem override_forces_value_witness :
    lookupOverride "sts" "AssumeRole" = some false ∧
    ReadOnlyOperations.has ⟨fun _ => none, fun _ => none⟩
        ⟨[("svc", "url")], [("svc", ["Op"])], []⟩ "sts" "AssumeRole"
      = ⟨.ok false, ⟨[("svc", "url")], [("svc", ["Op"])], []⟩, 0, 0⟩ :=
  ⟨by decide, override_forces_value _ _ _ _ false (by decide)⟩

/-- C2: for every pair not in the override table whose operation belongs to the
merged static read-only list for the service (bundled plus custom), `has` returns
true with no network fetch, no cache-file read, and the state unchanged. -/
theorem static_member_returns_true (w : World) (urls : List (String × String))
    (data : Metadata) (service operation : String)
    (hov : lookupOverride service operation = none)
    (hst : operation ∈ opsFor (mk_known_readonly_operations data) service) :
    ReadOnlyOperations.has w (ReadOnlyOperations.init urls data) service operation
      = ⟨.ok true, ReadOnlyOperations.init urls data, 0, 0⟩ := by
  simp only [ReadOnlyOperations.has, hov, ReadOnlyOperations.init]
  cases hl : lookupD (mk_known_readonly_operations data) service with
  | none => exact absurd hst (by simp [opsFor, hl])
  | some operations =>
    have hm : operation ∈ operations := by
      simpa [opsFor, hl] using hst
    simp [hl, hm]

/-- Witness for C2: `has("s3", "ls")` is true via the custom exception list even with
empty bundled metadata and an empty directory. -/
theorem static_member_returns_true_witness :
    lookupOverride "s3" "ls" = none ∧
    "ls" ∈ opsFor (mk_known_readonly_operations []) "s3" ∧
    ReadOnlyOperations.has ⟨fun _ => none, fun _ => none⟩ (ReadOnlyOperations.init [] [])
        "s3" "ls"
      = ⟨.ok true, ReadOnlyOperations.init [] [], 0, 0⟩ :=
  ⟨by decide, by decide,
    static_member_returns_true _ [] [] "s3" "ls" (by decide) (by decide)⟩

/-- C3: for a service absent from the override table, the merged static set, the
in-memory per-service cache and the service directory, `has` returns the definite
answer false (not an error) for every operation, with no network fetch and no
cache-file read, and the state unchanged. -/
theorem unknown_service_returns_false (w : World) (self : ReadOnlyOperations)
    (service operation : String)
    (hov : lookupD OVERRIDES service = none)
    (hst : lookupD self.known_readonly_operations service = none)
    (hres : lookupD self.resolved_operations service = none)
    (hurl : lookupD self.service_reference_urls_by_service service = none) :
    ReadOnlyOperations.has w self service operation = ⟨.ok false, self, 0, 0⟩ := by
  have hov' : lookupOverride service operation = none := by
    simp [lookupOverride, hov]
  simp only [ReadOnlyOperations.has, hov', hst, ReadOnlyOperations.resolve_then_check,
    hres, hurl]

/-- Witness for C3 at a service name no data source knows. -/
theorem unknown_service_returns_false_witness :
    lookupD OVERRIDES "nosuchsvc" = none ∧
    ReadOnlyOperations.has ⟨fun _ => some ⟨some []⟩, fun _ => some (some ["Op"])⟩
        ⟨[("other", "url")], [("other", ["Op"])], [("other", ["Op"])]⟩ "nosuchsvc" "Op"
      = ⟨.ok false, ⟨[("other", "url")], [("other", ["Op"])], [("other", ["Op"])]⟩, 0, 0⟩ :=
  ⟨by decide,
    unknown_service_returns_false _ _ _ _ (by decide) (by decide) (by decide) (by decide)⟩

/-- C4: for a service in the directory but not yet resolved, when the resolver path
is reached (no override or static hit), the network fetch fails and the local cache
file is absent or unloadable, `has` propagates a `ServiceOperationsUnavailable`
error naming the service instead of returning a silent default boolean, and the
resolver itself errors the same way. -/
theorem fetch_failure_without_cache_raises (w : World) (self : ReadOnlyOperations)
    (service operation url : String)
    (hov : lookupOverride service operation = none)
    (hst : (opsFor self.known_readonly_operations service).contains operation = false)
    (hres : lookupD self.resolved_operations service = none)
    (hurl : lookupD self.service_reference_urls_by_service service = some url)
    (hfetch : w.fetch url = none)
    (hcache : w.service_operations_cache service = none ∨
      w.service_operations_cache service = some none) :
    (ReadOnlyOperations.cache_ready_only_operations_for_service w self service).result
        = .error ⟨service⟩ ∧
    (ReadOnlyOperations.has w self service operation).result = .error ⟨service⟩ := by
  have hresolve : ReadOnlyOperations.cache_ready_only_operations_for_service w self service
      = ⟨.error ⟨service⟩, self, 1, 1⟩ := by
    simp only [ReadOnlyOperations.cache_ready_only_operations_for_service, hurl,
      Option.getD_some, hfetch, ReadOnlyOperations.load_service_cache_fallback]
    rcases hcache with hcache | hcache <;> simp [hcache]
  have hrest : ReadOnlyOperations.resolve_then_check w self service operation
      = ⟨.error ⟨service⟩, self, 1, 1⟩ := by
    simp only [ReadOnlyOperations.resolve_then_check, hres, hurl, hresolve]
  refine ⟨by simp [hresolve], ?_⟩
  cases hk : lookupD self.known_readonly_operations service with
  | none => simp [ReadOnlyOperations.has, hov, hk, hrest]
  | some operations =>
    have hm : operation ∉ operations := by
      have : operations.contains operation = false := by simpa [opsFor, hk] using hst
      rw [← contains_eq_true_iff_mem, this]
      exact Bool.false_ne_true
    simp [ReadOnlyOperations.has, hov, hk, hm, hrest]

/-- Witness for C4: a directory-known service, failing fetch, no cache file. -/
theorem fetch_failure_without_cache_raises_witness :
    (ReadOnlyOperations.cache_ready_only_operations_for_service
        ⟨fun _ => none, fun _ => none⟩ ⟨[("svcA", "u")], [], []⟩ "svcA").result
      = .error ⟨"svcA"⟩ ∧
    (ReadOnlyOperations.has ⟨fun _ => none, fun _ => none⟩
        ⟨[("svcA", "u")], [], []⟩ "svcA" "Op").result = .error ⟨"svcA"⟩ :=
  fetch_failure_without_cache_raises ⟨fun _ => none, fun _ => none⟩
    ⟨[("svcA", "u")], [], []⟩ "svcA" "Op" "u" (by decide) (by decide) (by decide)
    (by decide) rfl (Or.inl rfl)

/-- C5 counterexample: with a fetch that yields a JSON body lacking the `Actions`
key and no cache file, the first `has("svcA", "Op")` raises, yet it leaves the
in-memory entry `svcA ↦ []` behind, so the very same repeated call silently
returns false instead of raising again — the failed call did change the facade's
state and a later answer derives from the partially populated entry. -/
theorem failed_resolution_retains_partial_entry :
    (ReadOnlyOperations.has ⟨fun _ => some ⟨none⟩, fun _ => none⟩
        ⟨[("svcA", "u")], [], []⟩ "svcA" "Op").result = .error ⟨"svcA"⟩ ∧
    (ReadOnlyOperations.has ⟨fun _ => some ⟨none⟩, fun _ => none⟩
        ⟨[("svcA", "u")], [], []⟩ "svcA" "Op").state
      = ⟨[("svcA", "u")], [], [("svcA", [])]⟩ ∧
    (⟨[("svcA", "u")], [], [("svcA", [])]⟩ : ReadOnlyOperations)
      ≠ ⟨[("svcA", "u")], [], []⟩ ∧
    (ReadOnlyOperations.has ⟨fun _ => some ⟨none⟩, fun _ => none⟩
        (ReadOnlyOperations.has ⟨fun _ => some ⟨none⟩, fun _ => none⟩
          ⟨[("svcA", "u")], [], []⟩ "svcA" "Op").state "svcA" "Op").result
      = .ok false := by
  refine ⟨rfl, rfl, ?_, rfl⟩
  decide

/-- C5 as amended: when the network fetch itself fails (no response body is
obtained) and no usable cache file exists, the failed `has` call leaves the
facade's state unchanged — so a repeat of the call raises exactly as the first
did.  (When a response body is obtained but is malformed, the code first assigns
`self[service]` and the partial entry survives the error; see the
counterexample.) -/
theorem fetch_failure_leaves_state_unchanged (w : World) (self : ReadOnlyOperations)
    (service operation url : String)
    (hov : lookupOverride service operation = none)
    (hst : (opsFor self.known_readonly_operations service).contains operation = false)
    (hres : lookupD self.resolved_operations service = none)
    (hurl : lookupD self.service_reference_urls_by_service service = some url)
    (hfetch : w.fetch url = none)
    (hcache : w.service_operations_cache service = none ∨
      w.service_operations_cache service = some none) :
    ReadOnlyOperations.has w self service operation
      = ⟨.error ⟨service⟩, self, 1, 1⟩ := by
  have hresolve : ReadOnlyOperations.cache_ready_only_operations_for_service w self service
      = ⟨.error ⟨service⟩, self, 1, 1⟩ := by
    simp only [ReadOnlyOperations.cache_ready_only_operations_for_service, hurl,
      Option.getD_some, hfetch, ReadOnlyOperations.load_service_cache_fallback]
    rcases hcache with hcache | hcache <;> simp [hcache]
  have hrest : ReadOnlyOperations.resolve_then_check w self service operation
      = ⟨.error ⟨service⟩, self, 1, 1⟩ := by
    simp only [ReadOnlyOperations.resolve_then_check, hres, hurl, hresolve]
  cases hk : lookupD self.known_readonly_operations service with
  | none => simp [ReadOnlyOperations.has, hov, hk, hrest]
  | some operations =>
    have hm : operation ∉ operations := by
      have : operations.contains operation = false := by simpa [opsFor, hk] using hst
      rw [← contains_eq_true_iff_mem, this]
      exact Bool.false_ne_true
    simp [ReadOnlyOperations.has, hov, hk, hm, hrest]

/-- Witness for the amended C5: a transport-level fetch failure with no cache file
leaves the instance exactly as it was. -/
theorem fetch_failure_leaves_state_unchanged_witness :
    ReadOnlyOperations.has ⟨fun _ => none, fun _ => none⟩
        ⟨[("svcB", "u")], [], []⟩ "svcB" "Op"
      = ⟨.error ⟨"svcB"⟩, ⟨[("svcB", "u")], [], []⟩, 1, 1⟩ :=
  fetch_failure_leaves_state_unchanged ⟨fun _ => none, fun _ => none⟩
    ⟨[("svcB", "u")], [], []⟩ "svcB" "Op" "u" (by decide) (by decide) (by decide)
    (by decide) rfl (Or.inl rfl)

/-- C6: directory construction — on a fetch failure with a loadable persisted
directory cache, initialization succeeds with exactly the mapping built from the
cached records; on a fetch failure with the cache file absent, or present but
unloadable, initialization fails with an error carrying the original fetch
error. -/
theorem directory_init_fallback (e : DirectoryFetchFailure)
    (records : List (String × String)) :
    ServiceReferenceUrlsByService.init (.error e) (some (some records))
        = .ok (ServiceReferenceUrlsByService.build records) ∧
    ServiceReferenceUrlsByService.init (.error e) none = .error e ∧
    ServiceReferenceUrlsByService.init (.error e) (some none) = .error e :=
  ⟨rfl, rfl, rfl⟩

/-- C7 counterexample: a facade whose in-memory entry for "sts" is
["AssumeRole"] answers `has("sts", "AssumeRole")` with the override value false,
not with membership in the in-memory list (which holds "AssumeRole"), so "every
subsequent call … answering by membership in the existing in-memory list" fails
as stated. -/
theorem resolved_entry_not_membership_answer :
    lookupD ((⟨[], [], [("sts", ["AssumeRole"])]⟩ : ReadOnlyOperations).resolved_operations)
        "sts" = some ["AssumeRole"] ∧
    (["AssumeRole"].contains "AssumeRole") = true ∧
    (ReadOnlyOperations.has ⟨fun _ => none, fun _ => none⟩
        ⟨[], [], [("sts", ["AssumeRole"])]⟩ "sts" "AssumeRole").result
      ≠ .ok (["AssumeRole"].contains "AssumeRole") := by
  refine ⟨rfl, rfl, ?_⟩
  decide

/-- C7 as amended: once a service has an in-memory per-service entry, every `has`
call for it performs no network fetch and no cache-file read and leaves the state
unchanged; when additionally neither the override table nor the static set matches
the pair, the answer is exactly membership in the existing in-memory list. -/
theorem resolved_service_skips_resolution (w : World) (self : ReadOnlyOperations)
    (service operation : String) (operations : List String)
    (hres : lookupD self.resolved_operations service = some operations) :
    (ReadOnlyOperations.has w self service operation).fetchCalls = 0 ∧
    (ReadOnlyOperations.has w self service operation).cacheReads = 0 ∧
    (ReadOnlyOperations.has w self service operation).state = self ∧
    (lookupOverride service operation = none →
      (opsFor self.known_readonly_operations service).contains operation = false →
      (ReadOnlyOperations.has w self service operation).result
        = .ok (operations.contains operation)) := by
  have hrest : ReadOnlyOperations.resolve_then_check w self service operation
      = ⟨.ok (operations.contains operation), self, 0, 0⟩ := by
    simp only [ReadOnlyOperations.resolve_then_check, hres]
  have hmain : ∀ hov : lookupOverride service operation = none,
      ∀ hst : (opsFor self.known_readonly_operations service).contains operation = false,
      ReadOnlyOperations.has w self service operation
        = ⟨.ok (operations.contains operation), self, 0, 0⟩ := by
    intro hov hst
    cases hk : lookupD self.known_readonly_operations service with
    | none => simp [ReadOnlyOperations.has, hov, hk, hrest]
    | some staticOps =>
      have hm : operation ∉ staticOps := by
        have : staticOps.contains operation = false := by simpa [opsFor, hk] using hst
        rw [← contains_eq_true_iff_mem, this]
        exact Bool.false_ne_true
      simp [ReadOnlyOperations.has, hov, hk, hm, hrest]
  cases hov : lookupOverride service operation with
  | some forced => simp [ReadOnlyOperations.has, hov]
  | none =>
    refine ⟨?_, ?_, ?_, fun _ hst => by rw [hmain hov hst]⟩ <;>
      · cases hk : lookupD self.known_readonly_operations service with
        | none => simp [ReadOnlyOperations.has, hov, hk, hrest]
        | some staticOps =>
          by_cases hm : operation ∈ staticOps <;>
            simp [ReadOnlyOperations.has, hov, hk, hm, hrest]

/-- Witness for the amended C7: a resolved service with an entry, no override or
static hit, answers by membership with zero fetches and reads. -/
theorem resolved_service_skips_resolution_witness :
    (ReadOnlyOperations.has ⟨fun _ => none, fun _ => none⟩
        ⟨[("svcC", "u")], [], [("svcC", ["ListThings"])]⟩ "svcC" "ListThings").fetchCalls = 0 ∧
    (ReadOnlyOperations.has ⟨fun _ => none, fun _ => none⟩
        ⟨[("svcC", "u")], [], [("svcC", ["ListThings"])]⟩ "svcC" "ListThings").cacheReads = 0 ∧
    (ReadOnlyOperations.has ⟨fun _ => none, fun _ => none⟩
        ⟨[("svcC", "u")], [], [("svcC", ["ListThings"])]⟩ "svcC" "ListThings").state
      = ⟨[("svcC", "u")], [], [("svcC", ["ListThings"])]⟩ ∧
    (lookupOverride "svcC" "ListThings" = none →
      (opsFor (⟨[("svcC", "u")], [], [("svcC", ["ListThings"])]⟩ :
          ReadOnlyOperations).known_readonly_operations "svcC").contains "ListThings" = false →
      (ReadOnlyOperations.has ⟨fun _ => none, fun _ => none⟩
          ⟨[("svcC", "u")], [], [("svcC", ["ListThings"])]⟩ "svcC" "ListThings").result
        = .ok (["ListThings"].contains "ListThings")) :=
  resolved_service_skips_resolution ⟨fun _ => none, fun _ => none⟩
    ⟨[("svcC", "u")], [], [("svcC", ["ListThings"])]⟩ "svcC" "ListThings"
    ["ListThings"] (by decide)

theorem decode_operation_names_map_str (operations : List String) :
    decode_operation_names (operations.map Json.str) = some operations := by
  induction operations with
  | nil => rfl
  | cons a t ih => simp [decode_operation_names, ih]

theorem decode_encode_operations (operations : List String) :
    decode_operations (encode_operations operations) = some operations := by
  simp [encode_operations, decode_operations, decode_operation_names_map_str]

/-- C8: persisting a per-service operation list and loading it back yields the very
same list, and a facade whose in-memory entry for the service is the loaded copy
answers every `has` call exactly as one whose entry is the original list. -/
theorem service_cache_round_trip (store : CacheStore) (service : String)
    (operations : List String) :
    load_service_cache (save_service_cache store service operations) service
        = some operations ∧
    ∀ (w : World) (self : ReadOnlyOperations) (operation : String) (loaded : List String),
      load_service_cache (save_service_cache store service operations) service = some loaded →
      ReadOnlyOperations.has w
          { self with resolved_operations := insertD self.resolved_operations service loaded }
          service operation
        = ReadOnlyOperations.has w
          { self with resolved_operations := insertD self.resolved_operations service operations }
          service operation := by
  have h1 : load_service_cache (save_service_cache store service operations) service
      = some operations := by
    simp [load_service_cache, save_service_cache, lookupD_insertD, decode_encode_operations]
  refine ⟨h1, fun w self operation loaded hload => ?_⟩
  have : loaded = operations := by
    rw [h1] at hload
    exact (Option.some.inj hload).symm
  rw [this]

/-- Witness for C8 at a concrete store, service and list. -/
theorem service_cache_round_trip_witness :
    load_service_cache (save_service_cache [] "svcD" ["OpA"]) "svcD" = some ["OpA"] ∧
    ReadOnlyOperations.has ⟨fun _ => none, fun _ => none⟩
        { (⟨[], [], []⟩ : ReadOnlyOperations) with
            resolved_operations := insertD ([] : List (String × List String)) "svcD" ["OpA"] }
        "svcD" "OpA"
      = ReadOnlyOperations.has ⟨fun _ => none, fun _ => none⟩
        { (⟨[], [], []⟩ : ReadOnlyOperations) with
            resolved_operations := insertD ([] : List (String × List String)) "svcD" ["OpA"] }
        "svcD" "OpA" :=
  ⟨(service_cache_round_trip [] "svcD" ["OpA"]).1,
    (service_cache_round_trip [] "svcD" ["OpA"]).2 ⟨fun _ => none, fun _ => none⟩
      ⟨[], [], []⟩ "OpA" ["OpA"] rfl⟩

/-- C10 counterexample: on a response body whose single action lacks the `IsWrite`
annotation, the pre-warm script succeeds and writes the empty list, while the
resolver's extraction raises (and persists nothing) — the two are not equivalent on
every response body. -/
theorem prebuild_diverges_on_malformed_body :
    fetch_service_operations_extract ⟨some [⟨some "Foo", none⟩]⟩ = some [] ∧
    resolver_extracted ⟨some [⟨some "Foo", none⟩]⟩ = .error [] :=
  ⟨rfl, rfl⟩

theorem extract_ok_prebuild (actions : List Action) :
    ∀ (acc l : List String), extract_read_only_actions actions acc = .ok l →
      ∃ t, l = acc ++ t ∧ prebuild_read_only_ops actions = some t := by
  induction actions with
  | nil =>
    intro acc l h
    simp only [extract_read_only_actions, Except.ok.injEq] at h
    exact ⟨[], by simp [h], rfl⟩
  | cons a rest ih =>
    intro acc l h
    unfold extract_read_only_actions at h
    cases hw : a.IsWrite with
    | none => rw [hw] at h; simp at h
    | some b =>
      rw [hw] at h
      cases b with
      | true =>
        obtain ⟨t, ht, hs⟩ := ih acc l h
        exact ⟨t, ht, by simp [prebuild_read_only_ops, hw, hs]⟩
      | false =>
        cases hn : a.Name with
        | none => rw [hn] at h; simp at h
        | some n =>
          rw [hn] at h
          obtain ⟨t, ht, hs⟩ := ih (acc ++ [n]) l h
          refine ⟨n :: t, by simp [ht], ?_⟩
          simp [prebuild_read_only_ops, hw, hn, hs]

/-- C10 as amended: on every response body from which the resolver successfully
extracts a read-only list (the `Actions` array is present, every action carries the
`IsWrite` annotation, and every selected action carries a `Name`), the pre-warm
script writes exactly the same list.  On bodies the resolver rejects the script may
still write a list, because it substitutes defaults for the missing fields. -/
theorem prebuild_matches_resolver_on_accepted_bodies (response : ServiceResponse)
    (operations : List String)
    (h : resolver_extracted response = .ok operations) :
    fetch_service_operations_extract response = some operations := by
  unfold resolver_extracted at h
  cases hA : response.Actions with
  | none => rw [hA] at h; simp at h
  | some actions =>
    rw [hA] at h
    obtain ⟨t, ht, hs⟩ := extract_ok_prebuild actions [] operations h
    simp only [List.nil_append] at ht
    simp [fetch_service_operations_extract, hA, hs, ht]

/-- Witness for the amended C10 on a two-action body with one read and one write. -/
theorem prebuild_matches_resolver_witness :
    resolver_extracted ⟨some [⟨some "ListX", some false⟩, ⟨some "PutX", some true⟩]⟩
        = .ok ["ListX"] ∧
    fetch_service_operations_extract
        ⟨some [⟨some "ListX", some false⟩, ⟨some "PutX", some true⟩]⟩ = some ["ListX"] :=
  ⟨rfl, prebuild_matches_resolver_on_accepted_bodies _ _ rfl⟩

theorem mem_addReadOnly (known : List (String × List String)) (s0 s op : String)
    (q : String × Option String) :
    op ∈ opsFor (addReadOnly known s0 q) s ↔
      op ∈ opsFor known s ∨ (s0 = s ∧ q.1 = op ∧ q.2 = some "ReadOnly") := by
  unfold addReadOnly
  by_cases hq : q.2 = some "ReadOnly"
  · rw [if_pos hq, opsFor_insertD]
    by_cases hs : s0 = s
    · rw [if_pos hs]
      subst hs
      constructor
      · intro h
        rcases List.mem_append.mp h with h | h
        · exact Or.inl h
        · exact Or.inr ⟨rfl, (List.mem_singleton.mp h).symm, hq⟩
      · intro h
        rcases h with h | ⟨-, h, -⟩
        · exact List.mem_append.mpr (Or.inl h)
        · exact List.mem_append.mpr (Or.inr (List.mem_singleton.mpr h.symm))
    · rw [if_neg hs]
      simp [hs]
  · rw [if_neg hq]
    simp [hq]

theorem mem_innerFold (ops : List (String × Option String)) :
    ∀ (known : List (String × List String)) (s0 s op : String),
      op ∈ opsFor (ops.foldl (fun kn q => addReadOnly kn s0 q) known) s ↔
        op ∈ opsFor known s ∨ (s0 = s ∧ ∃ q ∈ ops, q.1 = op ∧ q.2 = some "ReadOnly") := by
  induction ops with
  | nil => intro known s0 s op; simp
  | cons q rest ih =>
    intro known s0 s op
    simp only [List.foldl_cons]
    rw [ih, mem_addReadOnly]
    simp only [List.exists_mem_cons_iff]
    tauto

theorem mem_metadataFold (data : Metadata) :
    ∀ (known : List (String × List String)) (s op : String),
      op ∈ opsFor
          (data.foldl (fun kn p => p.2.foldl (fun kn2 q => addReadOnly kn2 p.1 q) kn) known) s ↔
        op ∈ opsFor known s ∨
          ∃ p ∈ data, p.1 = s ∧ ∃ q ∈ p.2, q.1 = op ∧ q.2 = some "ReadOnly" := by
  induction data with
  | nil => intro known s op; simp
  | cons p rest ih =>
    intro known s op
    simp only [List.foldl_cons]
    rw [ih, mem_innerFold]
    simp only [List.exists_mem_cons_iff]
    rw [or_assoc]

theorem mem_get_known_readonly (data : Metadata) (s op : String) :
    op ∈ opsFor (get_known_readonly_operations_from_metadata data) s ↔
      ∃ p ∈ data, p.1 = s ∧ ∃ q ∈ p.2, q.1 = op ∧ q.2 = some "ReadOnly" := by
  unfold get_known_readonly_operations_from_metadata
  rw [mem_metadataFold]
  simp [opsFor, lookupD]

theorem merge_custom_step_eq (known : List (String × List String))
    (p : String × List String) :
    merge_custom_step known p = insertD known p.1 (opsFor known p.1 ++ p.2) := by
  unfold merge_custom_step
  cases h : lookupD known p.1 <;> simp [opsFor, h]

theorem lookupD_merge_fold (custom : List (String × List String)) :
    ∀ (base : List (String × List String)) (s : String),
      (custom.map Prod.fst).Nodup →
      lookupD (custom.foldl merge_custom_step base) s =
        match lookupD custom s with
        | some ops => some (opsFor base s ++ ops)
        | none => lookupD base s := by
  induction custom with
  | nil => intro base s _; simp [lookupD]
  | cons p rest ih =>
    intro base s hnd
    simp only [List.map_cons, List.nodup_cons] at hnd
    obtain ⟨hp, hrest⟩ := hnd
    simp only [List.foldl_cons]
    rw [ih _ s hrest]
    by_cases hs : p.1 = s
    · subst hs
      have hnone : lookupD rest p.1 = none := lookupD_eq_none_of_not_mem_keys _ _ hp
      simp [hnone, merge_custom_step_eq, lookupD_insertD, lookupD]
    · have h1 : lookupD (merge_custom_step base p) s = lookupD base s := by
        rw [merge_custom_step_eq, lookupD_insertD, if_neg hs]
      have h2 : opsFor (merge_custom_step base p) s = opsFor base s := by
        simp [opsFor, h1]
      cases hr : lookupD rest s with
      | none => simp [hr, h1, lookupD, hs]
      | some ops => simp [hr, h2, lookupD, hs]

theorem lookupD_mk_known (data : Metadata) (s : String) :
    lookupD (mk_known_readonly_operations data) s =
      match lookupD get_custom_readonly_operations s with
      | some ops => some (opsFor (get_known_readonly_operations_from_metadata data) s ++ ops)
      | none => lookupD (get_known_readonly_operations_from_metadata data) s := by
  unfold mk_known_readonly_operations
  exact lookupD_merge_fold _ _ _ (by decide)

/-- C9: the merged static set is the union of its two origins — an operation is in
the merged list for a service iff it is tagged `ReadOnly` for that service in the
bundled metadata or it appears in the custom table for that service; and for a
service present in the custom table, the merged entry is the bundled list with the
custom list appended (never replaced). -/
theorem merged_static_set_is_union (data : Metadata) (s op : String) :
    (op ∈ opsFor (mk_known_readonly_operations data) s ↔
      (∃ p ∈ data, p.1 = s ∧ ∃ q ∈ p.2, q.1 = op ∧ q.2 = some "ReadOnly") ∨
      op ∈ opsFor get_custom_readonly_operations s) ∧
    (∀ customOps, lookupD get_custom_readonly_operations s = some customOps →
      lookupD (mk_known_readonly_operations data) s =
        some (opsFor (get_known_readonly_operations_from_metadata data) s ++ customOps)) := by
  have hmk := lookupD_mk_known data s
  constructor
  · cases hc : lookupD get_custom_readonly_operations s with
    | some ops =>
      rw [hc] at hmk
      have hops : opsFor (mk_known_readonly_operations data) s =
          opsFor (get_known_readonly_operations_from_metadata data) s ++ ops := by
        simp [opsFor, hmk]
      have hcustom : opsFor get_custom_readonly_operations s = ops := by
        simp [opsFor, hc]
      rw [hops, hcustom, List.mem_append, mem_get_known_readonly]
    | none =>
      rw [hc] at hmk
      have hops : opsFor (mk_known_readonly_operations data) s =
          opsFor (get_known_readonly_operations_from_metadata data) s := by
        simp [opsFor, hmk]
      have hcustom : opsFor get_custom_readonly_operations s = [] := by
        simp [opsFor, hc]
      rw [hops, hcustom, mem_get_known_readonly]
      simp
  · intro customOps hc
    rw [hc] at hmk
    exact hmk

/-- Witness for C9 on one bundled service with one read-only and one mutating
operation, at the service "s3" that also has custom entries. -/
theorem merged_static_set_is_union_witness :
    "GetObject" ∈ opsFor (mk_known_readonly_operations
        [("s3", [("GetObject", some "ReadOnly"), ("PutObject", some "Mutating")])]) "s3" ∧
    lookupD (mk_known_readonly_operations
        [("s3", [("GetObject", some "ReadOnly"), ("PutObject", some "Mutating")])]) "s3"
      = some (opsFor (get_known_readonly_operations_from_metadata
            [("s3", [("GetObject", some "ReadOnly"), ("PutObject", some "Mutating")])]) "s3"
          ++ ["ls", "presign"]) := by
  have h := merged_static_set_is_union
    [("s3", [("GetObject", some "ReadOnly"), ("PutObject", some "Mutating")])] "s3" "GetObject"
  exact ⟨h.1.mpr (Or.inl (by decide)), h.2 ["ls", "presign"] (by decide)⟩

end AwsApiMcp
